import Mathlib

/-!
Verification of the per-frame animation core of the PointClouds repository
(src/main.js) against its natural-language specification.

The JavaScript number computations of the animation core are modelled over
the real numbers.  Each definition below is a direct transcription of the
corresponding expression in src/main.js; the line numbers in the doc
comments refer to that file.
-/

namespace PointClouds

open Real

/-- A 3-component vector of reals, modelling a THREE.Vector3 / a point or a
color triple taken from a flat Float32 buffer. -/
structure Vec3 where
  x : ℝ
  y : ℝ
  z : ℝ

/-! ### Formation controller (main.js lines 378-385) -/

/-- Formation progress, main.js line 380:
t = Math.min(1, (performance.now() - formationStart) / formationDuration). -/
noncomputable def formationProgressT (elapsedMs duration : ℝ) : ℝ :=
  min 1 (elapsedMs / duration)

/-- Ease-out-cubic, main.js line 381: e = 1 - Math.pow(1 - t, 3). -/
noncomputable def formationEase (t : ℝ) : ℝ := 1 - (1 - t) ^ 3

/-- The formation explode factor, main.js lines 378-384: e starts at 1 and is
recomputed from the eased timer only while formation is running
(!formationDone && startVertices); formationExplode = 1 - e. -/
noncomputable def formationExplode (formationDone hasStart : Bool)
    (elapsedMs duration : ℝ) : ℝ :=
  if formationDone = false ∧ hasStart = true then
    1 - formationEase (formationProgressT elapsedMs duration)
  else
    1 - 1

/-- Effective explode factor, main.js line 385:
fEff = Math.max(formationExplode, params.explode). -/
noncomputable def effectiveExplode (formationDone hasStart : Bool)
    (elapsedMs duration explodeSlider : ℝ) : ℝ :=
  max (formationExplode formationDone hasStart elapsedMs duration) explodeSlider

/-! ### Hover relaxation step (main.js lines 443-445 / 468-470) -/

/-- Per-frame relaxation fraction, main.js line 443: Math.min(1, dt * 10). -/
noncomputable def relaxFactor (dt : ℝ) : ℝ := min 1 (dt * 10)

/-- One relaxation step, main.js line 443:
arr[i] += (bx - arr[i]) * Math.min(1, dt * 10). -/
noncomputable def relaxStep (base cur dt : ℝ) : ℝ :=
  cur + (base - cur) * relaxFactor dt

/-- n relaxation steps at a fixed per-frame dt. -/
noncomputable def relaxIter (base cur dt : ℝ) : ℕ → ℝ
  | 0 => cur
  | n + 1 => relaxStep base (relaxIter base cur dt n) dt

/-! ### Animation parameters and walk/turn state (main.js lines 98-147, 357-366) -/

/-- The subset of the params object and module flags consumed by the frame
step (main.js lines 98-147 and the animate function). -/
structure AnimParams where
  pauseWalk : Bool
  formationDone : Bool
  gaitEnabled : Bool
  walkSpeed : ℝ
  walkRange : ℝ
  gaitFreq : ℝ
  gaitBobAmp : ℝ
  gaitSwayAmp : ℝ
  gaitPitchAmpDeg : ℝ
  gaitHeadBobAmp : ℝ
  gaitTailSwayAmp : ℝ
  gaitFrontSplit : ℝ
  explodeSlider : ℝ
  dt : ℝ
  nowMs : ℝ
  elapsed : ℝ

/-- The mutable walk/turn/gait module state (main.js lines 357-366 plus
tigerGroup.position.x and tigerGroup.rotation.y). -/
structure WalkState where
  x : ℝ
  walkDirection : ℝ
  isTurning : Bool
  turnStart : ℝ
  turnFrom : ℝ
  turnDelta : ℝ
  rotY : ℝ
  gaitPhase : ℝ

/-- THREE.MathUtils.degToRad. -/
noncomputable def degToRad (d : ℝ) : ℝ := d * Real.pi / 180

/-! ### Gait offsets (main.js lines 387-392, 411-419, 480-485, 535-540) -/

/-- Per-frame head bob precomputation, main.js lines 388-390: zero unless
gait is enabled, else Math.sin(gaitPhase * Math.PI * 2) * gaitHeadBobAmp. -/
noncomputable def headBobY (p : AnimParams) (gaitPhase : ℝ) : ℝ :=
  if p.gaitEnabled = true then
    Real.sin (gaitPhase * Real.pi * 2) * p.gaitHeadBobAmp
  else 0

/-- Per-frame tail sway precomputation, main.js lines 388-391: zero unless
gait is enabled, else
Math.sin(gaitPhase * Math.PI * 2 + Math.PI * 0.5) * gaitTailSwayAmp. -/
noncomputable def tailSwayZ (p : AnimParams) (gaitPhase : ℝ) : ℝ :=
  if p.gaitEnabled = true then
    Real.sin (gaitPhase * Real.pi * 2 + Real.pi * 0.5) * p.gaitTailSwayAmp
  else 0

/-- Head weight of a point, main.js line 415:
Math.max(0, (s - gaitFrontSplit)) / Math.max(1e-6, 1 - gaitFrontSplit). -/
noncomputable def headWeight (p : AnimParams) (stripe : ℝ) : ℝ :=
  max 0 (stripe - p.gaitFrontSplit) / max 1e-6 (1 - p.gaitFrontSplit)

/-- Blended base position, main.js lines 408-410:
b = original + (start - original) * fEff, componentwise. -/
noncomputable def blendedBase (fEff : ℝ) (o s : Vec3) : Vec3 :=
  ⟨o.x + (s.x - o.x) * fEff, o.y + (s.y - o.y) * fEff, o.z + (s.z - o.z) * fEff⟩

/-- The per-point base position including the head/tail gait offsets,
main.js lines 408-419: when gait is enabled and stripe data exists, the
head bob scaled by headW is added to Y and the tail sway scaled by tailW
is added to Z of the blended base. -/
noncomputable def gaitBase (p : AnimParams) (gaitPhase fEff : ℝ)
    (hasStripe : Bool) (o s : Vec3) (stripe : ℝ) : Vec3 :=
  let b := blendedBase fEff o s
  if p.gaitEnabled = true ∧ hasStripe = true then
    let hw := headWeight p stripe
    let tw := 1 - hw
    ⟨b.x, b.y + headBobY p gaitPhase * hw, b.z + tailSwayZ p gaitPhase * tw⟩
  else b

/-- The body-level bob, main.js lines 536-538: tiger.position.y is assigned
sin(elapsed * gaitFreq * π * 2) * gaitBobAmp only when gait is enabled and
formation is done, otherwise it keeps its previous value. -/
noncomputable def tigerPosYNext (p : AnimParams) (old : ℝ) : ℝ :=
  if p.gaitEnabled = true ∧ p.formationDone = true then
    Real.sin (p.elapsed * p.gaitFreq * Real.pi * 2) * p.gaitBobAmp
  else old

/-- The body-level sway, main.js lines 536-539: tiger.position.z is assigned
sin(phase * 0.5 + π * 0.25) * gaitSwayAmp with
phase = elapsed * gaitFreq * π * 2, under the same gate as the bob. -/
noncomputable def tigerPosZNext (p : AnimParams) (old : ℝ) : ℝ :=
  if p.gaitEnabled = true ∧ p.formationDone = true then
    Real.sin (p.elapsed * p.gaitFreq * Real.pi * 2 * 0.5 + Real.pi * 0.25) * p.gaitSwayAmp
  else old

/-- The body-level pitch offset, main.js lines 480-484: zero unless gait is
enabled and formation is done, else
degToRad(sin(elapsed * gaitFreq * π * 2) * gaitPitchAmpDeg). -/
noncomputable def addPitch (p : AnimParams) : ℝ :=
  if p.gaitEnabled = true ∧ p.formationDone = true then
    degToRad (Real.sin (p.elapsed * p.gaitFreq * Real.pi * 2) * p.gaitPitchAmpDeg)
  else 0

/-! ### Turn easing and angles (main.js lines 524-533, 561-566) -/

/-- Ease-in-out quadratic, main.js line 526:
t < 0.5 ? 2*t*t : -1 + (4 - 2*t)*t. -/
noncomputable def easeInOutQuad (t : ℝ) : ℝ :=
  if t < 0.5 then 2 * t * t else -1 + (4 - 2 * t) * t

/-- Truncation toward zero, the rounding used by the JavaScript % operator. -/
noncomputable def jsTrunc (x : ℝ) : ℤ :=
  if 0 ≤ x then ⌊x⌋ else ⌈x⌉

/-- The JavaScript remainder a % b (sign of the dividend). -/
noncomputable def jsFmod (a b : ℝ) : ℝ := a - b * (jsTrunc (a / b) : ℝ)

/-- normalizeAngle, main.js lines 561-566: reduce modulo 2π with the %
operator and add 2π when the remainder is negative. -/
noncomputable def normalizeAngle (a : ℝ) : ℝ :=
  let r := jsFmod a (2 * Real.pi)
  if r < 0 then r + 2 * Real.pi else r

/-- Turn duration in seconds, main.js line 365. -/
noncomputable def turnDuration : ℝ := 10.5

/-- Normalized turn progress, main.js line 525:
min(1, elapsedMs / (durationS * 1000)). -/
noncomputable def turnT (elapsedMs durationS : ℝ) : ℝ :=
  min 1 (elapsedMs / (durationS * 1000))

/-- The yaw published while turning, main.js lines 525-528:
normalizeAngle(turnFrom + turnDelta * ease(t)). -/
noncomputable def turnYaw (turnFrom turnDelta elapsedMs durationS : ℝ) : ℝ :=
  normalizeAngle (turnFrom + turnDelta * easeInOutQuad (turnT elapsedMs durationS))

/-! ### The walk/turn frame step (main.js lines 505-534) -/

/-- Translation and gait-phase advance, main.js lines 506-509: both happen
only when not paused, formation is done and no turn is in progress; the
phase additionally requires gait to be enabled. -/
noncomputable def walkTranslate (p : AnimParams) (s : WalkState) : WalkState :=
  if p.pauseWalk = false ∧ p.formationDone = true ∧ s.isTurning = false then
    { s with
        x := s.x + s.walkDirection * p.walkSpeed * p.dt,
        gaitPhase :=
          if p.gaitEnabled = true then s.gaitPhase + p.dt * p.gaitFreq
          else s.gaitPhase }
  else s

/-- Bound handling, main.js lines 511-523: outside a turn, crossing either
bound clamps x to that bound and starts a turn of delta π from the current
yaw. -/
noncomputable def walkClampTurn (p : AnimParams) (s : WalkState) : WalkState :=
  if s.isTurning = false ∧ p.walkRange < s.x then
    { s with x := p.walkRange, isTurning := true, turnStart := p.nowMs,
             turnFrom := s.rotY, turnDelta := Real.pi }
  else if s.isTurning = false ∧ s.x < -p.walkRange then
    { s with x := -p.walkRange, isTurning := true, turnStart := p.nowMs,
             turnFrom := s.rotY, turnDelta := Real.pi }
  else s

/-- Eased turn clock of the current frame, main.js line 525:
t = Math.min(1, (performance.now() - turnStart) / (turnDuration * 1000)). -/
noncomputable def walkTurnT (p : AnimParams) (s : WalkState) : ℝ :=
  min 1 ((p.nowMs - s.turnStart) / (turnDuration * 1000))

/-- Turn progression, main.js lines 524-533: while turning, the yaw is the
eased interpolation; when the eased time reaches 1 the turn ends, the walk
direction flips and the yaw is fixed at the turn target. -/
noncomputable def walkTurnUpdate (p : AnimParams) (s : WalkState) : WalkState :=
  if s.isTurning = true then
    if 1 ≤ walkTurnT p s then
      { s with rotY := normalizeAngle (s.turnFrom + s.turnDelta),
               isTurning := false,
               walkDirection := if s.walkDirection = 1 then -1 else 1 }
    else
      { s with rotY :=
          normalizeAngle (s.turnFrom + s.turnDelta * easeInOutQuad (walkTurnT p s)) }
  else s

/-- One frame of the walk/turn state machine, main.js lines 505-534. -/
noncomputable def walkStep (p : AnimParams) (s : WalkState) : WalkState :=
  walkTurnUpdate p (walkClampTurn p (walkTranslate p s))

/-! ### Concrete instances used by counterexamples and witnesses -/

/-- A parameter set with gait on, formation done, mid-walk timing, at global
clock elapsed = 0 s. -/
noncomputable def pGaitElapsed0 : AnimParams :=
  { pauseWalk := false, formationDone := true, gaitEnabled := true,
    walkSpeed := 1, walkRange := 10, gaitFreq := 1/4,
    gaitBobAmp := 1, gaitSwayAmp := 1, gaitPitchAmpDeg := 2,
    gaitHeadBobAmp := 1, gaitTailSwayAmp := 1, gaitFrontSplit := 1/2,
    explodeSlider := 0, dt := 1/30, nowMs := 0, elapsed := 0 }

/-- The same parameter set one second later on the global clock. -/
noncomputable def pGaitElapsed1 : AnimParams :=
  { pGaitElapsed0 with elapsed := 1 }

/-- A state in the middle of a turn (the turn began at nowMs = 0). -/
noncomputable def sMidTurn : WalkState :=
  { x := 10, walkDirection := 1, isTurning := true, turnStart := 0,
    turnFrom := 0, turnDelta := Real.pi, rotY := 0, gaitPhase := 0 }

/-- A parameter set with gait enabled while formation is still in progress. -/
noncomputable def pFormingGait : AnimParams :=
  { pGaitElapsed0 with formationDone := false, gaitTailSwayAmp := 1 }

/-- Walk parameters for the bound-clamp witness: range 1, speed 30. -/
noncomputable def pWalkClamp : AnimParams :=
  { pGaitElapsed0 with walkRange := 1, walkSpeed := 30 }

/-- A walking state about to cross the +range bound: x = 1/2, direction +1,
so one step of 30 * (1/30) lands at 3/2 past range 1. -/
noncomputable def sWalkCross : WalkState :=
  { x := 1/2, walkDirection := 1, isTurning := false, turnStart := 0,
    turnFrom := 0, turnDelta := 0, rotY := 0, gaitPhase := 0 }

/-! ### Hover wobble displacement (main.js lines 420-446) -/

/-- Squared distance from the base position to the hover point, main.js
lines 420-423: dx*dx + dy*dy + dz*dz. -/
noncomputable def dist2 (b h : Vec3) : ℝ :=
  (b.x - h.x) * (b.x - h.x) + (b.y - h.y) * (b.y - h.y) + (b.z - h.z) * (b.z - h.z)

/-- Per-point hash seed, main.js line 429:
seed = ox * 12.9898 + oy * 78.233 + oz * 37.719. -/
noncomputable def wobbleSeed (o : Vec3) : ℝ :=
  o.x * 12.9898 + o.y * 78.233 + o.z * 37.719

/-- Time-modulated sinusoid, main.js lines 430-431:
n = sin(seed + now * 0.001 * wobbleNoiseSpeed * π * 2.0). -/
noncomputable def wobbleN (o : Vec3) (nowMs noiseSpeed : ℝ) : ℝ :=
  Real.sin (wobbleSeed o + nowMs * 0.001 * noiseSpeed * Real.pi * 2.0)

/-- Raw pseudo-random direction from the seed, main.js lines 433-435. -/
noncomputable def wobbleDirRaw (o : Vec3) : Vec3 :=
  ⟨Real.sin (wobbleSeed o * 1.3),
   Real.sin (wobbleSeed o * 1.7 + 1.0),
   Real.sin (wobbleSeed o * 1.9 + 2.0)⟩

/-- Euclidean norm of a vector, modelling Math.hypot(vx, vy, vz). -/
noncomputable def vnorm (v : Vec3) : ℝ :=
  Real.sqrt (v.x * v.x + v.y * v.y + v.z * v.z)

/-- Normalization denominator, main.js line 436:
vlen = Math.hypot(vx, vy, vz) || 1 (1 substituted when the norm is 0). -/
noncomputable def wobbleVlen (o : Vec3) : ℝ :=
  if vnorm (wobbleDirRaw o) = 0 then 1 else vnorm (wobbleDirRaw o)

/-- Floored distance, main.js line 425: d = sqrt(max(d2, 1e-6)). -/
noncomputable def wobbleDist (b h : Vec3) : ℝ :=
  Real.sqrt (max (dist2 b h) 1e-6)

/-- Falloff, main.js line 426: 1 - d / hoverRadius. -/
noncomputable def wobbleFalloff (b h : Vec3) (radius : ℝ) : ℝ :=
  1 - wobbleDist b h / radius

/-- Amplitude, main.js line 427: intensity * falloff * falloff. -/
noncomputable def wobbleAmp (b h : Vec3) (radius intensity : ℝ) : ℝ :=
  intensity * wobbleFalloff b h radius * wobbleFalloff b h radius

/-- The wobble displacement added to the base position inside the hover
radius, main.js lines 437-440: the normalized direction times amp times n,
componentwise. -/
noncomputable def wobbleDisp (o b h : Vec3) (radius intensity noiseSpeed nowMs : ℝ) : Vec3 :=
  ⟨(wobbleDirRaw o).x / wobbleVlen o * wobbleAmp b h radius intensity
      * wobbleN o nowMs noiseSpeed,
   (wobbleDirRaw o).y / wobbleVlen o * wobbleAmp b h radius intensity
      * wobbleN o nowMs noiseSpeed,
   (wobbleDirRaw o).z / wobbleVlen o * wobbleAmp b h radius intensity
      * wobbleN o nowMs noiseSpeed⟩

/-- The origin vector. -/
noncomputable def vZero : Vec3 := ⟨0, 0, 0⟩

/-- A rest position whose wobble seed is exactly π/2. -/
noncomputable def oWob : Vec3 := ⟨Real.pi / 2 / 12.9898, 0, 0⟩

/-- A two-entry palette (red, green) used to instantiate the colorer. -/
noncomputable def paletteRG : List Vec3 := [⟨1, 0, 0⟩, ⟨0, 1, 0⟩]

/-! ### Stripe coordinate construction (main.js lines 1448-1462) -/

/-- Bounding-box minimum along X over a nonempty point list (head x0). -/
noncomputable def bboxMinX (x0 : ℝ) (xs : List ℝ) : ℝ := xs.foldl min x0

/-- Bounding-box maximum along X over a nonempty point list (head x0). -/
noncomputable def bboxMaxX (x0 : ℝ) (xs : List ℝ) : ℝ := xs.foldl max x0

/-- Span denominator, main.js line 1457:
span = Math.max(1e-6, maxX - minX). -/
noncomputable def stripeSpan (x0 : ℝ) (xs : List ℝ) : ℝ :=
  max 1e-6 (bboxMaxX x0 xs - bboxMinX x0 xs)

/-- Normalized stripe coordinates, main.js lines 1459-1462:
stripeCoord[i] = (x - minX) / span for every point. -/
noncomputable def stripeCoords (x0 : ℝ) (xs : List ℝ) : List ℝ :=
  (x0 :: xs).map fun x => (x - bboxMinX x0 xs) / stripeSpan x0 xs

/-! ### Stripe/ripple colorer (main.js lines 1506-1546) -/

/-- Clamp to [0,1], Math.max(0, Math.min(1, x)) as at main.js line 1526. -/
noncomputable def clamp01 (x : ℝ) : ℝ := max 0 (min 1 x)

/-- THREE.MathUtils.lerp(x, y, t) = (1 - t) * x + t * y. -/
noncomputable def threeLerp (x y t : ℝ) : ℝ := (1 - t) * x + t * y

/-- Effective stripe count, main.js line 1524:
Math.max(1, Math.floor(stripesCount)). -/
noncomputable def stripesOf (c : ℝ) : ℤ := max 1 ⌊c⌋

/-- Effective wave count, main.js line 1525:
Math.max(0, Math.floor(rippleWaves)). -/
noncomputable def wavesOf (w : ℝ) : ℤ := max 0 ⌊w⌋

/-- Effective ripple speed, main.js line 1527: Math.max(0, rippleSpeed). -/
noncomputable def speedOf (v : ℝ) : ℝ := max 0 v

/-- Softness-to-gamma remap, main.js line 1529:
lerp(8, 0.5, clamp01(stripeSoftness)). -/
noncomputable def gammaOf (softness : ℝ) : ℝ := threeLerp 8 0.5 (clamp01 softness)

/-- Ripple phase of a point, main.js line 1533:
phase = s * stripes + amp * sin(2π * (s * waves - t * speed)). -/
noncomputable def stripePhase (s stripesCount wavesCount rippleAmp rippleSpeed tSec : ℝ) : ℝ :=
  s * (stripesOf stripesCount : ℝ)
    + clamp01 rippleAmp
      * Real.sin (2 * Real.pi * (s * (wavesOf wavesCount : ℝ) - tSec * speedOf rippleSpeed))

/-- Band index before wrapping, main.js line 1534: Math.floor(phase). -/
noncomputable def stripeBand (s stripesCount wavesCount rippleAmp rippleSpeed tSec : ℝ) : ℤ :=
  ⌊stripePhase s stripesCount wavesCount rippleAmp rippleSpeed tSec⌋

/-- First palette index, main.js line 1537: ((band % P) + P) % P with the
JavaScript truncating remainder. -/
def stripeI1 (band P : ℤ) : ℤ := (band.tmod P + P).tmod P

/-- Second palette index, main.js line 1538: (i1 + 1) % P. -/
def stripeI2 (band P : ℤ) : ℤ := (stripeI1 band P + 1).tmod P

/-- Color interpolation, main.js lines 1497-1504:
componentwise c1 + (c2 - c1) * t. -/
noncomputable def lerpColor (c1 c2 : Vec3) (t : ℝ) : Vec3 :=
  ⟨c1.x + (c2.x - c1.x) * t, c1.y + (c2.y - c1.y) * t, c1.z + (c2.z - c1.z) * t⟩

/-- Blend exponent, main.js lines 1535-1536: mix = pow(frac, gamma) with
frac = phase - band. -/
noncomputable def stripeMix (s stripesCount wavesCount rippleAmp rippleSpeed softness tSec : ℝ) : ℝ :=
  (stripePhase s stripesCount wavesCount rippleAmp rippleSpeed tSec
      - (stripeBand s stripesCount wavesCount rippleAmp rippleSpeed tSec : ℝ))
    ^ gammaOf softness

/-- The CPU stripe color of one point, main.js lines 1531-1543. -/
noncomputable def stripeColor (palette : List Vec3)
    (s stripesCount wavesCount rippleAmp rippleSpeed softness tSec : ℝ) : Vec3 :=
  lerpColor
    (palette.getD
      (stripeI1 (stripeBand s stripesCount wavesCount rippleAmp rippleSpeed tSec)
        (palette.length : ℤ)).toNat vZero)
    (palette.getD
      (stripeI2 (stripeBand s stripesCount wavesCount rippleAmp rippleSpeed tSec)
        (palette.length : ℤ)).toNat vZero)
    (stripeMix s stripesCount wavesCount rippleAmp rippleSpeed softness tSec)

/-! ### Helper lemmas -/

end PointClouds

namespace PointClouds

/-- Closed form of the relaxation iteration: each step multiplies the
remaining gap to the base by (1 - relaxFactor dt). -/
theorem relaxIter_closed (base cur dt : ℝ) (n : ℕ) :
    relaxIter base cur dt n = base + (cur - base) * (1 - relaxFactor dt) ^ n := by
  induction n with
  | zero => simp [relaxIter]
  | succ n ih =>
    simp only [relaxIter, relaxStep, ih, pow_succ]
    ring

/-- C1 (corrected): the relaxation step is not frame-rate independent.  On a
unit gap (base 0, current 1), one frame at dt = 1/30 and eight frames at
dt = 1/240 both cover the same elapsed wall-clock time 1/30 s, yet the
resulting positions differ by more than 1/25: 2/3 versus (23/24)^8. -/
theorem c1_counterexample :
    relaxIter 0 1 (1/30) 1 = 2/3 ∧
    relaxIter 0 1 (1/240) 8 = (23/24 : ℝ) ^ 8 ∧
    1/25 < |relaxIter 0 1 (1/30) 1 - relaxIter 0 1 (1/240) 8| := by
  have h30 : relaxFactor (1/30 : ℝ) = 1/3 := by
    unfold relaxFactor
    rw [min_eq_right] <;> norm_num
  have h240 : relaxFactor (1/240 : ℝ) = 1/24 := by
    unfold relaxFactor
    rw [min_eq_right] <;> norm_num
  have e1 : relaxIter 0 1 (1/30) 1 = 2/3 := by
    rw [relaxIter_closed, h30]; norm_num
  have e2 : relaxIter 0 1 (1/240) 8 = (23/24 : ℝ) ^ 8 := by
    rw [relaxIter_closed, h240]; norm_num
  refine ⟨e1, e2, ?_⟩
  rw [e1, e2]
  rw [abs_of_nonpos (by norm_num)]
  norm_num

/-- C1 (amended): at equal elapsed time T = n/30 the two schemes leave gap
factors (2/3)^n and (23/24)^(8n); both factors lie in [0,1] (each scheme
relaxes toward the base without overshooting), and the coarse scheme is
always at least as close to the base, but the factors are not equal in
general (frame-rate independence is only approximate). -/
theorem c1_amended (base cur : ℝ) (n : ℕ) :
    relaxIter base cur (1/30) n = base + (cur - base) * (2/3 : ℝ) ^ n ∧
    relaxIter base cur (1/240) (8*n) = base + (cur - base) * (23/24 : ℝ) ^ (8*n) ∧
    (2/3 : ℝ) ^ n ≤ (23/24 : ℝ) ^ (8*n) ∧
    (0 : ℝ) ≤ (2/3 : ℝ) ^ n ∧ (23/24 : ℝ) ^ (8*n) ≤ 1 := by
  have h30 : relaxFactor (1/30 : ℝ) = 1/3 := by
    unfold relaxFactor
    rw [min_eq_right] <;> norm_num
  have h240 : relaxFactor (1/240 : ℝ) = 1/24 := by
    unfold relaxFactor
    rw [min_eq_right] <;> norm_num
  refine ⟨?_, ?_, ?_, ?_, ?_⟩
  · rw [relaxIter_closed, h30]; norm_num
  · rw [relaxIter_closed, h240]; norm_num
  · have hbase : (2/3 : ℝ) ≤ (23/24 : ℝ) ^ 8 := by norm_num
    calc (2/3 : ℝ) ^ n ≤ ((23/24 : ℝ) ^ 8) ^ n := by
          exact pow_le_pow_left₀ (by norm_num) hbase n
      _ = (23/24 : ℝ) ^ (8*n) := by rw [← pow_mul]
  · positivity
  · exact pow_le_one₀ (by norm_num) (by norm_num)

/-- C5 (confirmed): the formation explode curve (1-t)^3 with
t = min(1, elapsed/duration) is non-increasing in elapsed time, always lies
in [0,1], equals 0 as soon as elapsed ≥ duration, and equals 0 whenever the
formation-done flag has latched. -/
theorem c5_formation_explode (duration e1 e2 : ℝ) (hs : Bool)
    (hd : 0 < duration) (h1 : 0 ≤ e1) (h12 : e1 ≤ e2) :
    formationExplode false true e2 duration ≤ formationExplode false true e1 duration ∧
    0 ≤ formationExplode false true e1 duration ∧
    formationExplode false true e1 duration ≤ 1 ∧
    (duration ≤ e1 → formationExplode false true e1 duration = 0) ∧
    formationExplode true hs e1 duration = 0 := by
  have hval : ∀ e : ℝ, formationExplode false true e duration
      = (1 - min 1 (e / duration)) ^ 3 := by
    intro e
    simp [formationExplode, formationEase, formationProgressT]
  have ht0 : ∀ e : ℝ, 0 ≤ e → 0 ≤ min 1 (e / duration) := by
    intro e he
    exact le_min (by norm_num) (div_nonneg he hd.le)
  have ht1 : ∀ e : ℝ, min 1 (e / duration) ≤ 1 := fun e => min_le_left _ _
  refine ⟨?_, ?_, ?_, ?_, ?_⟩
  · rw [hval, hval]
    have hmono : min 1 (e1 / duration) ≤ min 1 (e2 / duration) := by
      gcongr
    have h2le : 1 - min 1 (e2 / duration) ≤ 1 - min 1 (e1 / duration) := by
      linarith
    have h2nn : 0 ≤ 1 - min 1 (e2 / duration) := by
      have := ht1 e2; linarith
    exact pow_le_pow_left₀ h2nn h2le 3
  · rw [hval]
    have := ht1 e1
    have hnn : 0 ≤ 1 - min 1 (e1 / duration) := by linarith
    exact pow_nonneg hnn 3
  · rw [hval]
    have ha := ht0 e1 h1
    have hb : 1 - min 1 (e1 / duration) ≤ 1 := by linarith
    have hc : 0 ≤ 1 - min 1 (e1 / duration) := by
      have := ht1 e1; linarith
    calc (1 - min 1 (e1 / duration)) ^ 3 ≤ 1 ^ 3 := pow_le_pow_left₀ hc hb 3
      _ = 1 := one_pow 3
  · intro hge
    rw [hval]
    have : min 1 (e1 / duration) = 1 := by
      apply min_eq_left
      rw [le_div_iff₀ hd]
      linarith
    rw [this]
    norm_num
  · simp [formationExplode]

/-- C5 witness: the formation theorem at duration 3000 ms, elapsed 1000 ms
and 3000 ms. -/
theorem c5_formation_explode_witness :
    formationExplode false true 3000 3000 ≤ formationExplode false true 1000 3000 ∧
    0 ≤ formationExplode false true 1000 3000 ∧
    formationExplode false true 1000 3000 ≤ 1 ∧
    ((3000 : ℝ) ≤ 1000 → formationExplode false true 1000 3000 = 0) ∧
    formationExplode true false 1000 3000 = 0 :=
  c5_formation_explode 3000 1000 3000 false (by norm_num) (by norm_num) (by norm_num)

/-- normalizeAngle is the identity on angles already in the interval
[0, 2π). -/
theorem normalizeAngle_eq_self (a : ℝ) (h0 : 0 ≤ a) (h2 : a < 2 * Real.pi) :
    normalizeAngle a = a := by
  have hpi : (0:ℝ) < 2 * Real.pi := by positivity
  have hq0 : 0 ≤ a / (2 * Real.pi) := div_nonneg h0 hpi.le
  have hq1 : a / (2 * Real.pi) < 1 := (div_lt_one hpi).mpr h2
  have htr : jsTrunc (a / (2 * Real.pi)) = 0 := by
    unfold jsTrunc
    rw [if_pos hq0]
    exact Int.floor_eq_zero_iff.mpr ⟨hq0, hq1⟩
  unfold normalizeAngle jsFmod
  rw [htr]
  simp only [Int.cast_zero, mul_zero, sub_zero]
  rw [if_neg (not_lt.mpr h0)]

/-- C4 counterexample: the ease-in-out quadratic passes through the exact
midpoint (0.5, 0.5), so the yaw sampled at half the turn duration (here
duration 1.5 s, elapsed 750 ms, turnFrom 0, delta π) is exactly π/2 —
refuting the assertion that ease(0.5)·π is not π/2. -/
theorem c4_counterexample :
    easeInOutQuad (1/2) * Real.pi = Real.pi / 2 ∧
    turnYaw 0 Real.pi 750 (3/2) = Real.pi / 2 := by
  have hease : easeInOutQuad (1/2 : ℝ) = 1/2 := by
    unfold easeInOutQuad
    rw [if_neg (by norm_num)]
    norm_num
  constructor
  · rw [hease]; ring
  · have htt : turnT 750 (3/2) = 1/2 := by
      unfold turnT
      rw [min_eq_right] <;> norm_num
    unfold turnYaw
    rw [htt, hease]
    have harg : (0 : ℝ) + Real.pi * (1/2) = Real.pi / 2 := by ring
    rw [harg]
    exact normalizeAngle_eq_self _ (by positivity)
      (by nlinarith [Real.pi_pos])

/-- C4 (amended): for any positive duration, the yaw during a turn with
turnFrom = 0 and delta = π is 0 at elapsed 0, π at elapsed = duration, and
ease(1/2)·π at half duration — and that midpoint value is exactly π/2,
because the ease-in-out quadratic maps 1/2 to 1/2. -/
theorem c4_turn_easing (d : ℝ) (hd : 0 < d) :
    turnYaw 0 Real.pi 0 d = 0 ∧
    turnYaw 0 Real.pi (d * 1000) d = Real.pi ∧
    turnYaw 0 Real.pi (d * 1000 / 2) d = easeInOutQuad (1/2) * Real.pi ∧
    easeInOutQuad (1/2) = 1/2 := by
  have hd1000 : (0:ℝ) < d * 1000 := by positivity
  have hease : easeInOutQuad (1/2 : ℝ) = 1/2 := by
    unfold easeInOutQuad
    rw [if_neg (by norm_num)]
    norm_num
  refine ⟨?_, ?_, ?_, hease⟩
  · have htt : turnT 0 d = 0 := by
      unfold turnT
      rw [zero_div, min_eq_right (by norm_num)]
    have hease0 : easeInOutQuad (0 : ℝ) = 0 := by
      unfold easeInOutQuad
      rw [if_pos (by norm_num)]
      ring
    unfold turnYaw
    rw [htt, hease0, mul_zero, add_zero]
    exact normalizeAngle_eq_self 0 le_rfl (by positivity)
  · have htt : turnT (d * 1000) d = 1 := by
      unfold turnT
      rw [div_self (ne_of_gt hd1000), min_self]
    have hease1 : easeInOutQuad (1 : ℝ) = 1 := by
      unfold easeInOutQuad
      rw [if_neg (by norm_num)]
      norm_num
    unfold turnYaw
    rw [htt, hease1, mul_one, zero_add]
    exact normalizeAngle_eq_self Real.pi Real.pi_pos.le
      (by nlinarith [Real.pi_pos])
  · have htt : turnT (d * 1000 / 2) d = 1/2 := by
      unfold turnT
      have : d * 1000 / 2 / (d * 1000) = 1/2 := by
        field_simp
        ring
      rw [this, min_eq_right (by norm_num)]
    unfold turnYaw
    rw [htt, hease]
    have harg : (0 : ℝ) + Real.pi * (1/2) = 1/2 * Real.pi := by ring
    rw [harg]
    exact normalizeAngle_eq_self _ (by positivity)
      (by nlinarith [Real.pi_pos])

/-- C4 witness: the turn easing theorem at the spec's duration of 1.5 s. -/
theorem c4_turn_easing_witness :
    turnYaw 0 Real.pi 0 (3/2) = 0 ∧
    turnYaw 0 Real.pi ((3/2) * 1000) (3/2) = Real.pi ∧
    turnYaw 0 Real.pi ((3/2) * 1000 / 2) (3/2) = easeInOutQuad (1/2) * Real.pi ∧
    easeInOutQuad (1/2) = 1/2 :=
  c4_turn_easing (3/2) (by norm_num)

/-- The bound-handling stage never touches the gait phase. -/
theorem walkClampTurn_gaitPhase (p : AnimParams) (s : WalkState) :
    (walkClampTurn p s).gaitPhase = s.gaitPhase := by
  unfold walkClampTurn
  split_ifs <;> rfl

/-- The turn-progression stage never touches the gait phase. -/
theorem walkTurnUpdate_gaitPhase (p : AnimParams) (s : WalkState) :
    (walkTurnUpdate p s).gaitPhase = s.gaitPhase := by
  unfold walkTurnUpdate
  split_ifs <;> rfl

/-- The turn-progression stage never touches the group x position. -/
theorem walkTurnUpdate_x (p : AnimParams) (s : WalkState) :
    (walkTurnUpdate p s).x = s.x := by
  unfold walkTurnUpdate
  split_ifs <;> rfl

/-- The translation stage never touches the turning flag. -/
theorem walkTranslate_isTurning (p : AnimParams) (s : WalkState) :
    (walkTranslate p s).isTurning = s.isTurning := by
  unfold walkTranslate
  split_ifs <;> rfl

/-- The gait phase across one whole frame step: it advances by dt·gaitFreq
exactly when the walk is not paused, formation is done, no turn is in
progress and gait is enabled; otherwise it is unchanged. -/
theorem walkStep_gaitPhase (p : AnimParams) (s : WalkState) :
    (walkStep p s).gaitPhase =
      if p.pauseWalk = false ∧ p.formationDone = true ∧ s.isTurning = false
          ∧ p.gaitEnabled = true
      then s.gaitPhase + p.dt * p.gaitFreq else s.gaitPhase := by
  unfold walkStep
  rw [walkTurnUpdate_gaitPhase, walkClampTurn_gaitPhase]
  by_cases hA : p.pauseWalk = false <;> by_cases hB : p.formationDone = true <;>
    by_cases hC : s.isTurning = false <;> by_cases hG : p.gaitEnabled = true <;>
    simp [walkTranslate, hA, hB, hC, hG]

/-- C2 counterexample: with a turn in progress the frame step leaves the
gait-phase accumulator unchanged, yet the body-level bob — computed from
the global elapsed clock, not from the accumulator — still moves: at
gaitFreq 1/4 and bob amplitude 1 it is 0 at elapsed 0 s and 1 at elapsed
1 s.  So not every gait sinusoid is driven by the accumulator, and body
gait motion does not pause during turns. -/
theorem c2_counterexample :
    sMidTurn.isTurning = true ∧
    (walkStep pGaitElapsed0 sMidTurn).gaitPhase = sMidTurn.gaitPhase ∧
    (walkStep pGaitElapsed1 sMidTurn).gaitPhase = sMidTurn.gaitPhase ∧
    tigerPosYNext pGaitElapsed0 0 = 0 ∧
    tigerPosYNext pGaitElapsed1 0 = 1 := by
  refine ⟨rfl, ?_, ?_, ?_, ?_⟩
  · rw [walkStep_gaitPhase]
    simp [sMidTurn]
  · rw [walkStep_gaitPhase]
    simp [sMidTurn]
  · simp [tigerPosYNext, pGaitElapsed0]
  · have harg : (1 : ℝ) * (1/4) * Real.pi * 2 = Real.pi / 2 := by ring
    have hred : tigerPosYNext pGaitElapsed1 0
        = Real.sin ((1:ℝ) * (1/4) * Real.pi * 2) * 1 := rfl
    rw [hred, harg, Real.sin_pi_div_two, mul_one]

/-- C2 (amended): only the per-point head/tail offsets are driven by the
gait-phase accumulator; the accumulator advances by dt·gaitFreq exactly
when walking (not paused, formation done, not turning, gait enabled), so
the head/tail offsets freeze during turns and pauses, while the body-level
bob, sway and pitch are functions of the global elapsed clock. -/
theorem c2_gait_phase_gating (p : AnimParams) (s : WalkState) :
    ((walkStep p s).gaitPhase =
      if p.pauseWalk = false ∧ p.formationDone = true ∧ s.isTurning = false
          ∧ p.gaitEnabled = true
      then s.gaitPhase + p.dt * p.gaitFreq else s.gaitPhase) ∧
    (s.isTurning = true →
      headBobY p ((walkStep p s).gaitPhase) = headBobY p s.gaitPhase ∧
      tailSwayZ p ((walkStep p s).gaitPhase) = tailSwayZ p s.gaitPhase) ∧
    (p.gaitEnabled = true → p.formationDone = true →
      tigerPosYNext p 0 = Real.sin (p.elapsed * p.gaitFreq * Real.pi * 2) * p.gaitBobAmp) := by
  have hphase := walkStep_gaitPhase p s
  refine ⟨hphase, ?_, ?_⟩
  · intro hturn
    have hfrozen : (walkStep p s).gaitPhase = s.gaitPhase := by
      rw [hphase, if_neg]
      intro hcon
      rw [hturn] at hcon
      exact Bool.noConfusion hcon.2.2.1
    rw [hfrozen]
    exact ⟨rfl, rfl⟩
  · intro hg hf
    simp [tigerPosYNext, hg, hf]

/-- C3 counterexample: with gait enabled but formation still in progress
(formationExplode is 1 at elapsed 0, the formation-done flag false), the
per-point tail sway offset sin(π/2)·gaitTailSwayAmp = 1 is added to the Z
coordinate of a rear point (stripe 0), displacing it away from the blended
base — so gait offsets are not confined to the formation-complete phase. -/
theorem c3_counterexample :
    pFormingGait.formationDone = false ∧
    formationExplode false true 0 3000 = 1 ∧
    (gaitBase pFormingGait 0 1 true ⟨0,0,0⟩ ⟨0,0,0⟩ 0).z = 1 ∧
    (blendedBase 1 ⟨0,0,0⟩ ⟨0,0,0⟩).z = 0 := by
  refine ⟨rfl, ?_, ?_, ?_⟩
  · unfold formationExplode formationEase formationProgressT
    rw [if_pos ⟨rfl, rfl⟩, zero_div, min_eq_right (by norm_num)]
    norm_num
  · have harg : (0 : ℝ) * Real.pi * 2 + Real.pi * 0.5 = Real.pi / 2 := by ring
    have hsin : Real.sin ((0 : ℝ) * Real.pi * 2 + Real.pi * 0.5) = 1 := by
      rw [harg, Real.sin_pi_div_two]
    have hhw : headWeight pFormingGait 0 = 0 := by
      unfold headWeight
      have h1 : max (0:ℝ) (0 - pFormingGait.gaitFrontSplit) = 0 := by
        apply max_eq_left
        show (0:ℝ) - pFormingGait.gaitFrontSplit ≤ 0
        norm_num [pFormingGait, pGaitElapsed0]
      rw [h1, zero_div]
    have hred : (gaitBase pFormingGait 0 1 true ⟨0,0,0⟩ ⟨0,0,0⟩ 0).z
        = (0:ℝ) + ((0:ℝ) - 0) * 1
          + Real.sin ((0:ℝ) * Real.pi * 2 + Real.pi * 0.5) * (1:ℝ)
            * (1 - headWeight pFormingGait 0) := rfl
    rw [hred, hsin, hhw]
    norm_num
  · show (0:ℝ) + ((0:ℝ) - 0) * 1 = 0
    norm_num

/-- C3 (amended): the head/tail gait offsets are purely additive on the
blended base, but they are gated only on gait being enabled (and stripe
data existing) — they apply even while formation is in progress; only the
body-level bob, sway and pitch are additionally gated on formation being
done, so they stay inert (position untouched, zero pitch offset) while
formation is incomplete. -/
theorem c3_gait_additivity (p : AnimParams) (gp f stripe old : ℝ) (o s : Vec3)
    (hg : p.gaitEnabled = true) (hf : p.formationDone = false) :
    (gaitBase p gp f true o s stripe).x = (blendedBase f o s).x ∧
    (gaitBase p gp f true o s stripe).y
      = (blendedBase f o s).y + headBobY p gp * headWeight p stripe ∧
    (gaitBase p gp f true o s stripe).z
      = (blendedBase f o s).z + tailSwayZ p gp * (1 - headWeight p stripe) ∧
    tigerPosYNext p old = old ∧
    tigerPosZNext p old = old ∧
    addPitch p = 0 := by
  have hfot : ¬ (p.gaitEnabled = true ∧ p.formationDone = true) := by
    intro hcon
    rw [hf] at hcon
    exact Bool.noConfusion hcon.2
  refine ⟨?_, ?_, ?_, ?_, ?_, ?_⟩
  · unfold gaitBase
    rw [if_pos ⟨hg, rfl⟩]
  · unfold gaitBase
    rw [if_pos ⟨hg, rfl⟩]
  · unfold gaitBase
    rw [if_pos ⟨hg, rfl⟩]
  · unfold tigerPosYNext
    rw [if_neg hfot]
  · unfold tigerPosZNext
    rw [if_neg hfot]
  · unfold addPitch
    rw [if_neg hfot]

/-- C3 witness: the additivity theorem at the concrete forming-phase
parameters, phase 0, blend 1, stripe 0, origin points. -/
theorem c3_gait_additivity_witness :
    (gaitBase pFormingGait 0 1 true ⟨0,0,0⟩ ⟨0,0,0⟩ 0).x
      = (blendedBase 1 ⟨0,0,0⟩ ⟨0,0,0⟩).x ∧
    (gaitBase pFormingGait 0 1 true ⟨0,0,0⟩ ⟨0,0,0⟩ 0).y
      = (blendedBase 1 ⟨0,0,0⟩ ⟨0,0,0⟩).y + headBobY pFormingGait 0 * headWeight pFormingGait 0 ∧
    (gaitBase pFormingGait 0 1 true ⟨0,0,0⟩ ⟨0,0,0⟩ 0).z
      = (blendedBase 1 ⟨0,0,0⟩ ⟨0,0,0⟩).z + tailSwayZ pFormingGait 0 * (1 - headWeight pFormingGait 0) ∧
    tigerPosYNext pFormingGait 5 = 5 ∧
    tigerPosZNext pFormingGait 5 = 5 ∧
    addPitch pFormingGait = 0 :=
  c3_gait_additivity pFormingGait 0 1 0 5 ⟨0,0,0⟩ ⟨0,0,0⟩ rfl rfl

/-- C6 (confirmed): outside a turn, a translation that would carry x past
+range makes the frame step publish x exactly equal to +range with the
turning flag set (symmetrically at -range), and |x| ≤ range is preserved
by every frame step. -/
theorem c6_walk_bound_clamp (p : AnimParams) (s : WalkState)
    (hr : 0 ≤ p.walkRange) (ht : s.isTurning = false)
    (hcross : p.walkRange < (walkTranslate p s).x) :
    (walkStep p s).x = p.walkRange ∧
    (walkStep p s).isTurning = true ∧
    (∀ s2 : WalkState, s2.isTurning = false → (walkTranslate p s2).x < -p.walkRange →
        (walkStep p s2).x = -p.walkRange ∧ (walkStep p s2).isTurning = true) ∧
    (∀ s2 : WalkState, |s2.x| ≤ p.walkRange → |(walkStep p s2).x| ≤ p.walkRange) := by
  have hfreshT : ∀ u : WalkState, u.isTurning = true → u.turnStart = p.nowMs →
      (walkTurnUpdate p u).isTurning = true := by
    intro u hu hst
    unfold walkTurnUpdate
    have ht0 : walkTurnT p u = 0 := by
      unfold walkTurnT
      rw [hst, sub_self, zero_div, min_eq_right (by norm_num)]
    rw [if_pos hu, ht0, if_neg (by norm_num)]
    exact hu
  have hplus : (walkStep p s).x = p.walkRange ∧ (walkStep p s).isTurning = true := by
    have ht1 : (walkTranslate p s).isTurning = false := by
      rw [walkTranslate_isTurning, ht]
    unfold walkStep
    have hclamp : walkClampTurn p (walkTranslate p s) = { walkTranslate p s with
        x := p.walkRange, isTurning := true,
        turnStart := p.nowMs, turnFrom := (walkTranslate p s).rotY,
        turnDelta := Real.pi } := by
      unfold walkClampTurn
      rw [if_pos ⟨ht1, hcross⟩]
    rw [hclamp]
    constructor
    · rw [walkTurnUpdate_x]
    · exact hfreshT _ rfl rfl
  refine ⟨hplus.1, hplus.2, ?_, ?_⟩
  · intro s2 ht2 hcross2
    have ht1 : (walkTranslate p s2).isTurning = false := by
      rw [walkTranslate_isTurning, ht2]
    have hnoplus : ¬ ((walkTranslate p s2).isTurning = false
        ∧ p.walkRange < (walkTranslate p s2).x) := by
      rintro ⟨-, hgt⟩
      have : (walkTranslate p s2).x < p.walkRange := lt_of_lt_of_le hcross2 (by linarith)
      linarith
    unfold walkStep
    have hclamp : walkClampTurn p (walkTranslate p s2) = { walkTranslate p s2 with
        x := -p.walkRange, isTurning := true,
        turnStart := p.nowMs, turnFrom := (walkTranslate p s2).rotY,
        turnDelta := Real.pi } := by
      unfold walkClampTurn
      rw [if_neg hnoplus, if_pos ⟨ht1, hcross2⟩]
    rw [hclamp]
    constructor
    · rw [walkTurnUpdate_x]
    · exact hfreshT _ rfl rfl
  · intro s2 hx2
    unfold walkStep
    rw [walkTurnUpdate_x]
    by_cases hturn : s2.isTurning = true
    · have hnot1 : ¬ ((walkTranslate p s2).isTurning = false
          ∧ p.walkRange < (walkTranslate p s2).x) := by
        rintro ⟨hf2, -⟩
        rw [walkTranslate_isTurning, hturn] at hf2
        exact Bool.noConfusion hf2
      have hnot2 : ¬ ((walkTranslate p s2).isTurning = false
          ∧ (walkTranslate p s2).x < -p.walkRange) := by
        rintro ⟨hf2, -⟩
        rw [walkTranslate_isTurning, hturn] at hf2
        exact Bool.noConfusion hf2
      have hkeep : (walkTranslate p s2).x = s2.x := by
        unfold walkTranslate
        rw [if_neg]
        rintro ⟨-, -, hf2⟩
        rw [hturn] at hf2
        exact Bool.noConfusion hf2
      unfold walkClampTurn
      rw [if_neg hnot1, if_neg hnot2, hkeep]
      exact hx2
    · have hturnf : s2.isTurning = false := by
        cases hb : s2.isTurning
        · rfl
        · exact absurd hb hturn
      have ht1 : (walkTranslate p s2).isTurning = false := by
        rw [walkTranslate_isTurning, hturnf]
      unfold walkClampTurn
      by_cases h1 : (walkTranslate p s2).isTurning = false
          ∧ p.walkRange < (walkTranslate p s2).x
      · rw [if_pos h1]
        rw [abs_of_nonneg hr]
      · rw [if_neg h1]
        by_cases h2 : (walkTranslate p s2).isTurning = false
            ∧ (walkTranslate p s2).x < -p.walkRange
        · rw [if_pos h2]
          rw [abs_neg, abs_of_nonneg hr]
        · rw [if_neg h2]
          have hle : (walkTranslate p s2).x ≤ p.walkRange := by
            by_contra hcon
            exact h1 ⟨ht1, lt_of_not_le hcon⟩
          have hge : -p.walkRange ≤ (walkTranslate p s2).x := by
            by_contra hcon
            exact h2 ⟨ht1, lt_of_not_le hcon⟩
          exact abs_le.mpr ⟨hge, hle⟩

/-- C6 witness: range 1, speed 30, dt 1/30, starting at x = 1/2 walking in
the +1 direction, so the translated position 3/2 crosses the bound. -/
theorem c6_walk_bound_clamp_witness :
    (walkStep pWalkClamp sWalkCross).x = pWalkClamp.walkRange ∧
    (walkStep pWalkClamp sWalkCross).isTurning = true ∧
    (∀ s2 : WalkState, s2.isTurning = false →
        (walkTranslate pWalkClamp s2).x < -pWalkClamp.walkRange →
        (walkStep pWalkClamp s2).x = -pWalkClamp.walkRange ∧
        (walkStep pWalkClamp s2).isTurning = true) ∧
    (∀ s2 : WalkState, |s2.x| ≤ pWalkClamp.walkRange →
        |(walkStep pWalkClamp s2).x| ≤ pWalkClamp.walkRange) :=
  c6_walk_bound_clamp pWalkClamp sWalkCross
    (by norm_num [pWalkClamp, pGaitElapsed0])
    rfl
    (by
      unfold walkTranslate
      rw [if_pos ⟨rfl, rfl, rfl⟩]
      show pWalkClamp.walkRange <
        sWalkCross.x + sWalkCross.walkDirection * pWalkClamp.walkSpeed * pWalkClamp.dt
      norm_num [pWalkClamp, pGaitElapsed0, sWalkCross])

/-- The substituted normalization denominator is always positive. -/
theorem wobbleVlen_pos (o : Vec3) : 0 < wobbleVlen o := by
  unfold wobbleVlen
  split_ifs with h
  · norm_num
  · exact lt_of_le_of_ne (Real.sqrt_nonneg _) (Ne.symm h)

/-- Scaling every component of a vector multiplies its norm by the absolute
scale. -/
theorem vnorm_scale (v : Vec3) (c : ℝ) :
    vnorm ⟨v.x * c, v.y * c, v.z * c⟩ = vnorm v * |c| := by
  unfold vnorm
  rw [show v.x * c * (v.x * c) + v.y * c * (v.y * c) + v.z * c * (v.z * c)
      = (v.x * v.x + v.y * v.y + v.z * v.z) * c ^ 2 by ring]
  rw [Real.sqrt_mul (add_nonneg (add_nonneg (mul_self_nonneg _) (mul_self_nonneg _))
    (mul_self_nonneg _)), Real.sqrt_sq_eq_abs]

/-- Norm of the wobble displacement: the raw direction norm times the
absolute value of amp·n over the substituted denominator. -/
theorem vnorm_wobbleDisp (o b h : Vec3) (radius intensity noiseSpeed nowMs : ℝ) :
    vnorm (wobbleDisp o b h radius intensity noiseSpeed nowMs)
      = vnorm (wobbleDirRaw o)
          * |wobbleAmp b h radius intensity * wobbleN o nowMs noiseSpeed / wobbleVlen o| := by
  have hcomp : wobbleDisp o b h radius intensity noiseSpeed nowMs
      = ⟨(wobbleDirRaw o).x
            * (wobbleAmp b h radius intensity * wobbleN o nowMs noiseSpeed / wobbleVlen o),
         (wobbleDirRaw o).y
            * (wobbleAmp b h radius intensity * wobbleN o nowMs noiseSpeed / wobbleVlen o),
         (wobbleDirRaw o).z
            * (wobbleAmp b h radius intensity * wobbleN o nowMs noiseSpeed / wobbleVlen o)⟩ := by
    unfold wobbleDisp
    simp only [Vec3.mk.injEq]
    refine ⟨by ring, by ring, by ring⟩
  rw [hcomp, vnorm_scale]

/-- The raw direction norm divided by the substituted denominator never
exceeds 1. -/
theorem vnorm_div_vlen_le_one (o : Vec3) :
    vnorm (wobbleDirRaw o) / wobbleVlen o ≤ 1 := by
  unfold wobbleVlen
  split_ifs with h
  · rw [h]
    norm_num
  · rw [div_self h]

/-- C7 counterexample: a hover radius of 1/10000 with intensity 1, the point
exactly at the hover point (squared distance 0, inside radius squared), and
a rest position whose seed makes the sinusoid 1.  The 1e-6 floor on the
squared distance makes the effective distance 1/1000 exceed the radius, so
the falloff is -9, the amplitude 81, and the displacement magnitude 81 —
far above the intensity bound claimed for all radius inputs. -/
theorem c7_counterexample :
    dist2 vZero vZero < (1/10000 : ℝ) * (1/10000) ∧
    1 < vnorm (wobbleDisp oWob vZero vZero (1/10000) 1 0 0) := by
  have hd2 : dist2 vZero vZero = 0 := by
    unfold dist2 vZero
    norm_num
  constructor
  · rw [hd2]
    norm_num
  · have hseed : wobbleSeed oWob = Real.pi / 2 := by
      unfold wobbleSeed oWob
      show Real.pi / 2 / 12.9898 * 12.9898 + 0 * 78.233 + 0 * 37.719 = Real.pi / 2
      rw [div_mul_cancel₀]
      · ring
      · norm_num
    have hN : wobbleN oWob 0 0 = 1 := by
      unfold wobbleN
      rw [hseed]
      rw [show Real.pi / 2 + 0 * 0.001 * 0 * Real.pi * 2.0 = Real.pi / 2 by ring]
      exact Real.sin_pi_div_two
    have hdist : wobbleDist vZero vZero = 1/1000 := by
      unfold wobbleDist
      rw [hd2]
      rw [show max (0:ℝ) 1e-6 = (1/1000) * (1/1000) by norm_num]
      exact Real.sqrt_mul_self (by norm_num)
    have hfall : wobbleFalloff vZero vZero (1/10000) = -9 := by
      unfold wobbleFalloff
      rw [hdist]
      norm_num
    have hamp : wobbleAmp vZero vZero (1/10000) 1 = 81 := by
      unfold wobbleAmp
      rw [hfall]
      norm_num
    have hvx : 0 < (wobbleDirRaw oWob).x := by
      show 0 < Real.sin (wobbleSeed oWob * 1.3)
      rw [hseed]
      apply Real.sin_pos_of_pos_of_lt_pi
      · positivity
      · nlinarith [Real.pi_pos]
    have hvpos : 0 < vnorm (wobbleDirRaw oWob) := by
      unfold vnorm
      apply Real.sqrt_pos.mpr
      nlinarith [mul_self_nonneg (wobbleDirRaw oWob).y,
        mul_self_nonneg (wobbleDirRaw oWob).z, mul_pos hvx hvx]
    have hvlen : wobbleVlen oWob = vnorm (wobbleDirRaw oWob) := by
      unfold wobbleVlen
      rw [if_neg (ne_of_gt hvpos)]
    rw [vnorm_wobbleDisp, hamp, hN, hvlen, mul_one]
    have habs : |(81:ℝ) / vnorm (wobbleDirRaw oWob)| = 81 / vnorm (wobbleDirRaw oWob) :=
      abs_of_pos (div_pos (by norm_num) hvpos)
    rw [habs, mul_comm, div_mul_cancel₀ _ (ne_of_gt hvpos)]
    norm_num

/-- C7 (amended): for hover radii of at least 1/1000 (so that the 1e-6
floor on the squared distance cannot push the effective distance past the
radius), any nonnegative intensity and any point inside the squared-radius
test, the wobble displacement magnitude never exceeds the intensity. -/
theorem c7_wobble_bounded (o b h : Vec3) (radius intensity noiseSpeed nowMs : ℝ)
    (hr : 1/1000 ≤ radius) (hI : 0 ≤ intensity)
    (hin : dist2 b h < radius * radius) :
    vnorm (wobbleDisp o b h radius intensity noiseSpeed nowMs) ≤ intensity := by
  have hr0 : (0:ℝ) < radius := lt_of_lt_of_le (by norm_num) hr
  have hmaxle : max (dist2 b h) 1e-6 ≤ radius * radius := by
    apply max_le hin.le
    calc (1e-6 : ℝ) = (1/1000) * (1/1000) := by norm_num
      _ ≤ radius * radius := mul_le_mul hr hr (by norm_num) hr0.le
  have hd : wobbleDist b h ≤ radius := by
    unfold wobbleDist
    calc Real.sqrt (max (dist2 b h) 1e-6) ≤ Real.sqrt (radius * radius) :=
          Real.sqrt_le_sqrt hmaxle
      _ = radius := Real.sqrt_mul_self hr0.le
  have hdnn : 0 ≤ wobbleDist b h := Real.sqrt_nonneg _
  have hf0 : 0 ≤ wobbleFalloff b h radius := by
    unfold wobbleFalloff
    have : wobbleDist b h / radius ≤ 1 := (div_le_one hr0).mpr hd
    linarith
  have hf1 : wobbleFalloff b h radius ≤ 1 := by
    unfold wobbleFalloff
    have : 0 ≤ wobbleDist b h / radius := div_nonneg hdnn hr0.le
    linarith
  have hampA : 0 ≤ wobbleAmp b h radius intensity := by
    unfold wobbleAmp
    positivity
  have hampB : wobbleAmp b h radius intensity ≤ intensity := by
    unfold wobbleAmp
    have hff : wobbleFalloff b h radius * wobbleFalloff b h radius ≤ 1 := by
      nlinarith
    calc intensity * wobbleFalloff b h radius * wobbleFalloff b h radius
        = intensity * (wobbleFalloff b h radius * wobbleFalloff b h radius) := by ring
      _ ≤ intensity * 1 := mul_le_mul_of_nonneg_left hff hI
      _ = intensity := mul_one _
  have hNle : |wobbleN o nowMs noiseSpeed| ≤ 1 := by
    unfold wobbleN
    exact abs_le.mpr ⟨Real.neg_one_le_sin _, Real.sin_le_one _⟩
  have hLpos := wobbleVlen_pos o
  have hratio := vnorm_div_vlen_le_one o
  have hvnn : 0 ≤ vnorm (wobbleDirRaw o) := Real.sqrt_nonneg _
  rw [vnorm_wobbleDisp, abs_div, abs_of_pos hLpos, abs_mul,
    abs_of_nonneg hampA]
  calc vnorm (wobbleDirRaw o)
        * (wobbleAmp b h radius intensity * |wobbleN o nowMs noiseSpeed| / wobbleVlen o)
      = (vnorm (wobbleDirRaw o) / wobbleVlen o)
          * (wobbleAmp b h radius intensity * |wobbleN o nowMs noiseSpeed|) := by
        ring
    _ ≤ 1 * (wobbleAmp b h radius intensity * |wobbleN o nowMs noiseSpeed|) := by
        apply mul_le_mul_of_nonneg_right hratio
        positivity
    _ = wobbleAmp b h radius intensity * |wobbleN o nowMs noiseSpeed| := one_mul _
    _ ≤ wobbleAmp b h radius intensity * 1 :=
        mul_le_mul_of_nonneg_left hNle hampA
    _ = wobbleAmp b h radius intensity := mul_one _
    _ ≤ intensity := hampB

/-- C7 witness: radius 1, intensity 1, the point at the hover point. -/
theorem c7_wobble_bounded_witness :
    vnorm (wobbleDisp oWob vZero vZero 1 1 0 0) ≤ 1 :=
  c7_wobble_bounded oWob vZero vZero 1 1 0 0 (by norm_num) (by norm_num)
    (by
      unfold dist2 vZero
      norm_num)

/-- Folding min over a list of copies of c starting from c gives c. -/
theorem foldl_min_all_eq (c : ℝ) (xs : List ℝ) (h : ∀ x ∈ xs, x = c) :
    xs.foldl min c = c := by
  induction xs with
  | nil => rfl
  | cons y t ih =>
      have hy : y = c := h y (by simp)
      rw [List.foldl_cons, hy, min_self]
      exact ih fun z hz => h z (by simp [hz])

/-- Folding max over a list of copies of c starting from c gives c. -/
theorem foldl_max_all_eq (c : ℝ) (xs : List ℝ) (h : ∀ x ∈ xs, x = c) :
    xs.foldl max c = c := by
  induction xs with
  | nil => rfl
  | cons y t ih =>
      have hy : y = c := h y (by simp)
      rw [List.foldl_cons, hy, max_self]
      exact ih fun z hz => h z (by simp [hz])

/-- C9 (confirmed): when every sampled point shares the same X coordinate,
the span denominator is the positive epsilon 1e-6 (never zero) and every
stripe coordinate evaluates to exactly 0. -/
theorem c9_degenerate_span (x0 : ℝ) (xs : List ℝ) (h : ∀ x ∈ xs, x = x0) :
    0 < stripeSpan x0 xs ∧ ∀ y ∈ stripeCoords x0 xs, y = 0 := by
  have hmin : bboxMinX x0 xs = x0 := foldl_min_all_eq x0 xs h
  have hmax : bboxMaxX x0 xs = x0 := foldl_max_all_eq x0 xs h
  have hspan : stripeSpan x0 xs = 1e-6 := by
    unfold stripeSpan
    rw [hmin, hmax, sub_self, max_eq_left (by norm_num)]
  constructor
  · rw [hspan]
    norm_num
  · intro y hy
    unfold stripeCoords at hy
    rw [List.mem_map] at hy
    obtain ⟨x, hxmem, hxy⟩ := hy
    have hx : x = x0 := by
      rcases List.mem_cons.mp hxmem with h1 | h2
      · exact h1
      · exact h x h2
    rw [← hxy, hx, hmin, sub_self, zero_div]

/-- C9 witness: three points all at X = 2. -/
theorem c9_degenerate_span_witness :
    0 < stripeSpan 2 [2, 2] ∧ ∀ y ∈ stripeCoords 2 [2, 2], y = 0 :=
  c9_degenerate_span 2 [2, 2] (by
    intro x hx
    rcases List.mem_cons.mp hx with h1 | h2
    · exact h1
    · rcases List.mem_cons.mp h2 with h3 | h4
      · exact h3
      · cases h4)

/-- Truncating remainder of a negated dividend. -/
theorem tmod_of_neg (a b : ℤ) : (-a).tmod b = -(a.tmod b) := by
  rw [Int.tmod_def, Int.tmod_def, Int.neg_tdiv]
  ring

/-- The truncating remainder by a positive modulus is greater than its
negation. -/
theorem neg_lt_tmod (a P : ℤ) (hP : 0 < P) : -P < a.tmod P := by
  rcases le_or_lt 0 a with hb | hb
  · have := Int.tmod_nonneg P hb
    omega
  · have h1 : (-a).tmod P < P := Int.tmod_lt_of_pos _ hP
    have h2 := tmod_of_neg a P
    omega

/-- The double-remainder wrap used by the colorer equals the Euclidean
(nonnegative) remainder. -/
theorem stripeI1_eq_emod (band P : ℤ) (hP : 0 < P) :
    stripeI1 band P = band % P := by
  have hlow := neg_lt_tmod band P hP
  have h0 : 0 ≤ band.tmod P + P := by omega
  unfold stripeI1
  rw [Int.tmod_eq_emod h0 hP.le, Int.tmod_def]
  rw [show band - P * band.tdiv P + P = band + P * (1 - band.tdiv P) by ring]
  rw [Int.add_mul_emod_self_left]

/-- C10 (confirmed): for a nonempty palette of length P, the wrapped indices
i1 = ((band % P) + P) % P and i2 = (i1 + 1) % P lie in [0, P) for every
band, including the negative bands a ripple-shifted phase can produce. -/
theorem c10_palette_indices (band P : ℤ) (hP : 0 < P) :
    0 ≤ stripeI1 band P ∧ stripeI1 band P < P ∧
    0 ≤ stripeI2 band P ∧ stripeI2 band P < P := by
  have h1 : stripeI1 band P = band % P := stripeI1_eq_emod band P hP
  have hi1nn : 0 ≤ stripeI1 band P := by
    rw [h1]
    exact Int.emod_nonneg band (ne_of_gt hP)
  have hi1lt : stripeI1 band P < P := by
    rw [h1]
    exact Int.emod_lt_of_pos band hP
  have h2 : stripeI2 band P = (stripeI1 band P + 1) % P := by
    unfold stripeI2
    exact Int.tmod_eq_emod (by omega) hP.le
  refine ⟨hi1nn, hi1lt, ?_, ?_⟩
  · rw [h2]
    exact Int.emod_nonneg _ (ne_of_gt hP)
  · rw [h2]
    exact Int.emod_lt_of_pos _ hP

/-- C10 witness: palette length 4 and the negative band -7. -/
theorem c10_palette_indices_witness :
    0 ≤ stripeI1 (-7) 4 ∧ stripeI1 (-7) 4 < 4 ∧
    0 ≤ stripeI2 (-7) 4 ∧ stripeI2 (-7) 4 < 4 :=
  c10_palette_indices (-7) 4 (by decide)

/-- Interpolating with mix 0 returns the first color. -/
theorem lerpColor_zero (c1 c2 : Vec3) : lerpColor c1 c2 0 = c1 := by
  unfold lerpColor
  cases c1
  simp

/-- C8 (confirmed): with an integer stripe count k ≥ 1, zero waves and zero
ripple amplitude, the band at stripe coordinate s is exactly ⌊s·k⌋ and its
wrapped palette index is ⌊s·k⌋ mod P; at s = 1 that index is k mod P; and
the color at s = 0 is exactly the first palette entry. -/
theorem c8_stripe_palette (palette : List Vec3) (k : ℤ) (s v soft tSec : ℝ)
    (hP : 0 < palette.length) (hk : 1 ≤ k) :
    (stripeBand s (k : ℝ) 0 0 v tSec = ⌊s * (k : ℝ)⌋ ∧
      stripeI1 (stripeBand s (k : ℝ) 0 0 v tSec) (palette.length : ℤ)
        = ⌊s * (k : ℝ)⌋ % (palette.length : ℤ)) ∧
    stripeI1 (stripeBand 1 (k : ℝ) 0 0 v tSec) (palette.length : ℤ)
        = k % (palette.length : ℤ) ∧
    stripeColor palette 0 (k : ℝ) 0 0 v soft tSec = palette.getD 0 vZero := by
  have hPZ : (0:ℤ) < (palette.length : ℤ) := by exact_mod_cast hP
  have hstripes : stripesOf (k : ℝ) = k := by
    unfold stripesOf
    rw [Int.floor_intCast]
    exact max_eq_right hk
  have hampz : clamp01 (0:ℝ) = 0 := by
    unfold clamp01
    norm_num
  have hphase : ∀ u : ℝ, stripePhase u (k : ℝ) 0 0 v tSec = u * (k:ℝ) := by
    intro u
    unfold stripePhase
    rw [hampz, hstripes, zero_mul, add_zero]
  have hband : ∀ u : ℝ, stripeBand u (k : ℝ) 0 0 v tSec = ⌊u * (k:ℝ)⌋ := by
    intro u
    unfold stripeBand
    rw [hphase]
  refine ⟨⟨hband s, ?_⟩, ?_, ?_⟩
  · rw [hband s, stripeI1_eq_emod _ _ hPZ]
  · rw [hband 1, one_mul, Int.floor_intCast, stripeI1_eq_emod _ _ hPZ]
  · have hph0 : stripePhase 0 (k : ℝ) 0 0 v tSec = 0 := by
      rw [hphase, zero_mul]
    have hband0 : stripeBand 0 (k : ℝ) 0 0 v tSec = 0 := by
      unfold stripeBand
      rw [hph0, Int.floor_zero]
    have hu0 : 0 ≤ max 0 (min 1 soft) := le_max_left 0 _
    have hu1 : max 0 (min 1 soft) ≤ 1 :=
      max_le (by norm_num) (min_le_left 1 soft)
    have hgammapos : 0 < gammaOf soft := by
      unfold gammaOf threeLerp clamp01
      nlinarith
    have hmix0 : stripeMix 0 (k : ℝ) 0 0 v soft tSec = 0 := by
      unfold stripeMix
      rw [hph0, hband0]
      show ((0:ℝ) - ((0:ℤ):ℝ)) ^ gammaOf soft = 0
      rw [Int.cast_zero, sub_zero]
      exact Real.zero_rpow (ne_of_gt hgammapos)
    have hi1 : stripeI1 (stripeBand 0 (k : ℝ) 0 0 v tSec) (palette.length : ℤ) = 0 := by
      rw [hband0, stripeI1_eq_emod _ _ hPZ, Int.zero_emod]
    unfold stripeColor
    rw [hmix0, hi1, lerpColor_zero]
    rfl

/-- C8 witness: the red/green palette with stripe count 3, sampled at
s = 1/3, with zero waves, zero amplitude, zero speed, softness 0, time 0. -/
theorem c8_stripe_palette_witness :
    (stripeBand (1/3) ((3:ℤ) : ℝ) 0 0 0 0 = ⌊(1/3 : ℝ) * ((3:ℤ) : ℝ)⌋ ∧
      stripeI1 (stripeBand (1/3) ((3:ℤ) : ℝ) 0 0 0 0) (paletteRG.length : ℤ)
        = ⌊(1/3 : ℝ) * ((3:ℤ) : ℝ)⌋ % (paletteRG.length : ℤ)) ∧
    stripeI1 (stripeBand 1 ((3:ℤ) : ℝ) 0 0 0 0) (paletteRG.length : ℤ)
        = (3:ℤ) % (paletteRG.length : ℤ) ∧
    stripeColor paletteRG 0 ((3:ℤ) : ℝ) 0 0 0 0 0 = paletteRG.getD 0 vZero :=
  c8_stripe_palette paletteRG 3 (1/3) 0 0 0 (by simp [paletteRG]) (by norm_num)

end PointClouds
